import Mathlib

/-!
Verification of the gitui status-engine and git-hooks subsystems
(`asyncgit/src/sync/status.rs`, `asyncgit/src/sync/hooks.rs`,
`git2-hooks/src/lib.rs`, `asyncgit/src/error.rs`).

The Rust code is shallowly embedded: external repository state (the gix
status iterators, the git2 status scan, remote/branch lookups, hook
processes) is passed in explicitly as data, and each embedded function
mirrors the control flow of its source function.
-/

set_option maxRecDepth 4000

/-! ## Error model (asyncgit/src/error.rs)

Only the variants exercised by the embedded functions are modelled; the
other variants of `Error` in error.rs wrap external library errors that
never arise in the embedded fragments. -/

/-- Opaque model of a `git2::Error`.  `unbornBranch` stands for the error
`git2::Repository::head()` returns on a repository with no commits. -/
inductive GitError
  | unbornBranch
  | generic (code : Nat)
  deriving DecidableEq, Repr

/-- Opaque model of `git2_hooks::HooksError`. -/
inductive HooksError
  | mk (code : Nat)
  deriving DecidableEq, Repr

/-- Opaque model of a per-item error of the gix status iterators
(`gix::status::iter::Error`). -/
inductive IterError
  | mk (code : Nat)
  deriving DecidableEq, Repr

/-- Model of `asyncgit::error::Error` (error.rs), restricted to the
variants reachable from the embedded functions: `Generic`, `NoHead`,
`Git` (the `From<git2::Error>` conversion at error.rs:51-52), `Hooks`
(error.rs:87-88) and `GixStatusIter` (error.rs:141-142). -/
inductive Error
  | Generic (s : String)
  | NoHead
  | Git (e : GitError)
  | Hooks (e : HooksError)
  | GixStatusIter (e : IterError)
  deriving DecidableEq, Repr

/-! ## Status data model (asyncgit/src/sync/status.rs) -/

/-- `StatusItemType` (status.rs:17-31). -/
inductive StatusItemType
  | New
  | Modified
  | Deleted
  | Renamed
  | Typechange
  | Conflicted
  deriving DecidableEq, Repr

/-- `gix::status::index_worktree::iter::Summary` (external enum consumed
by status.rs:33-52). -/
inductive Summary
  | Removed
  | Added
  | Copied
  | IntentToAdd
  | Modified
  | TypeChange
  | Renamed
  | Conflict
  deriving DecidableEq, Repr

/-- `gix::diff::index::ChangeRef` (external enum consumed by
status.rs:54-65).  Each variant carries the repo-relative location
returned by `ChangeRef::fields().0`; `Rewrite` also records the source
location. -/
inductive ChangeRefM
  | Addition (location : String)
  | Deletion (location : String)
  | Modification (location : String)
  | Rewrite (source_location : String) (location : String)
  deriving DecidableEq, Repr

/-- The repo-relative path of a change, as returned by
`ChangeRef::fields().0`. -/
def ChangeRefM.location : ChangeRefM → String
  | .Addition l => l
  | .Deletion l => l
  | .Modification l => l
  | .Rewrite _ l => l

/-- The relevant `git2::Status` bit queries (external bitflags consumed
by status.rs:67-83). -/
structure Git2Status where
  is_index_new : Bool
  is_wt_new : Bool
  is_index_deleted : Bool
  is_wt_deleted : Bool
  is_index_renamed : Bool
  is_wt_renamed : Bool
  is_index_typechange : Bool
  is_wt_typechange : Bool
  is_conflicted : Bool
  deriving DecidableEq, Repr

/-- `git2::Delta` (external enum consumed by status.rs:85-95). -/
inductive Delta
  | Unmodified
  | Added
  | Deleted
  | Modified
  | Renamed
  | Copied
  | Ignored
  | Untracked
  | Typechange
  | Unreadable
  | Conflicted
  deriving DecidableEq, Repr

/-- `impl From<gix::status::index_worktree::iter::Summary> for
StatusItemType` (status.rs:33-52). -/
def StatusItemType.ofSummary : Summary → StatusItemType
  | .Removed => .Deleted
  | .Added | .Copied | .IntentToAdd => .New
  | .Modified => .Modified
  | .TypeChange => .Typechange
  | .Renamed => .Renamed
  | .Conflict => .Conflicted

/-- `impl From<gix::diff::index::ChangeRef> for StatusItemType`
(status.rs:54-65).  Note `Rewrite` maps to `Modified`. -/
def StatusItemType.ofChangeRef : ChangeRefM → StatusItemType
  | .Addition _ => .New
  | .Deletion _ => .Deleted
  | .Modification _ | .Rewrite _ _ => .Modified

/-- `impl From<git2::Status> for StatusItemType` (status.rs:67-83):
an if/else-if chain over the status bits, first match wins. -/
def StatusItemType.ofStatus (s : Git2Status) : StatusItemType :=
  if s.is_index_new || s.is_wt_new then .New
  else if s.is_index_deleted || s.is_wt_deleted then .Deleted
  else if s.is_index_renamed || s.is_wt_renamed then .Renamed
  else if s.is_index_typechange || s.is_wt_typechange then .Typechange
  else if s.is_conflicted then .Conflicted
  else .Modified

/-- `impl From<git2::Delta> for StatusItemType` (status.rs:85-95). -/
def StatusItemType.ofDelta : Delta → StatusItemType
  | .Added => .New
  | .Deleted => .Deleted
  | .Renamed => .Renamed
  | .Typechange => .Typechange
  | _ => .Modified

/-- `StatusItem` (status.rs:98-104). -/
structure StatusItem where
  path : String
  status : StatusItemType
  deriving DecidableEq, Repr

/-- `StatusType` (status.rs:107-116). -/
inductive StatusType
  | WorkingDir
  | Stage
  | Both
  deriving DecidableEq, Repr

/-! ## The sort comparator (status.rs:281-283)

`res.sort_by(|a, b| Path::new(a.path).cmp(Path::new(b.path)))` compares
`std::path::Path` values, i.e. lexicographically over the sequence of
path components, each component compared bytewise.  We model the
comparator with an explicit `Ordering`-valued function.  For the
repo-relative POSIX paths produced by the status backends,
`Path::components()` is splitting on `/` with empty and `.` components
dropped (a leading lone `.` component never occurs in these paths). -/

/-- Bytewise (equivalently, for valid Unicode, codepoint-wise)
comparison of two characters, as Rust compares the bytes of `OsStr`
path components. -/
def cmpChar (a b : Char) : Ordering :=
  compare a.toNat b.toNat

/-- Lexicographic lift of a comparator to lists, as Rust compares
iterators (`Iterator::cmp`). -/
def lexCmp (cmp : α → α → Ordering) : List α → List α → Ordering
  | [], [] => .eq
  | [], _ :: _ => .lt
  | _ :: _, [] => .gt
  | a :: as, b :: bs =>
    match cmp a b with
    | .eq => lexCmp cmp as bs
    | o => o

/-- Split a character list at `/` separators. -/
def splitSlash : List Char → List (List Char)
  | [] => [[]]
  | c :: rest =>
    if c = '/' then [] :: splitSlash rest
    else
      match splitSlash rest with
      | [] => [[c]]
      | h :: t => (c :: h) :: t

/-- The component sequence of a repo-relative path, as produced by
`std::path::Path::components()` on such paths: split on `/`, dropping
empty and `.` components. -/
def pathComponents (s : String) : List (List Char) :=
  (splitSlash s.toList).filter fun c => !c.isEmpty && c ≠ ['.']

/-- Model of `Path::new(a).cmp(Path::new(b))` for repo-relative paths:
lexicographic over components, bytewise within a component. -/
def pathCmp (a b : String) : Ordering :=
  lexCmp (lexCmp cmpChar) (pathComponents a) (pathComponents b)

/-- The non-strict order on status items induced by the sort comparator
of status.rs:281-283. -/
def itemLe (a b : StatusItem) : Prop :=
  pathCmp a.path b.path ≠ .gt

instance : DecidableRel itemLe := fun a b =>
  inferInstanceAs (Decidable (pathCmp a.path b.path ≠ .gt))

/-- Byte/codepoint-wise comparison of the whole path strings (what the
spec sentence claims the sort uses); compared with `pathCmp` it does not
treat `/` specially. -/
def byteLe (a b : StatusItem) : Prop :=
  lexCmp cmpChar a.path.toList b.path.toList ≠ .gt

instance : DecidableRel byteLe := fun a b =>
  inferInstanceAs (Decidable (lexCmp cmpChar a.path.toList b.path.toList ≠ .gt))

theorem cmpChar_swap (a b : Char) : cmpChar b a = (cmpChar a b).swap := by
  unfold cmpChar
  rcases Nat.lt_trichotomy a.toNat b.toNat with h | h | h
  · simp [Nat.compare_eq_lt.2 h, Nat.compare_eq_gt.2 h, Ordering.swap]
  · simp [h, Nat.compare_eq_eq.2 rfl, Ordering.swap]
  · simp [Nat.compare_eq_gt.2 h, Nat.compare_eq_lt.2 h, Ordering.swap]

theorem cmpChar_eq (a b : Char) (h : cmpChar a b = .eq) : a = b := by
  unfold cmpChar at h
  have hn : a.toNat = b.toNat := Nat.compare_eq_eq.1 h
  exact Char.ext (UInt32.ext hn)

theorem lexCmp_cons (cmp : α → α → Ordering) (a b : α) (as bs : List α) :
    lexCmp cmp (a :: as) (b :: bs) =
      match cmp a b with
      | .eq => lexCmp cmp as bs
      | o => o := rfl

theorem cmpChar_lt_trans {a b c : Char} (h₁ : cmpChar a b = .lt)
    (h₂ : cmpChar b c = .lt) : cmpChar a c = .lt := by
  unfold cmpChar at *
  exact Nat.compare_eq_lt.2 (Nat.lt_trans (Nat.compare_eq_lt.1 h₁) (Nat.compare_eq_lt.1 h₂))

theorem lexCmp_swap (cmp : α → α → Ordering)
    (hswap : ∀ a b, cmp b a = (cmp a b).swap) :
    ∀ xs ys, lexCmp cmp ys xs = (lexCmp cmp xs ys).swap
  | [], [] => by simp [lexCmp, Ordering.swap]
  | [], _ :: _ => by simp [lexCmp, Ordering.swap]
  | _ :: _, [] => by simp [lexCmp, Ordering.swap]
  | a :: as, b :: bs => by
    simp only [lexCmp, hswap a b]
    cases h : cmp a b <;>
      simp [Ordering.swap, lexCmp_swap cmp hswap as bs]

theorem lexCmp_eq (cmp : α → α → Ordering)
    (heq : ∀ a b, cmp a b = .eq → a = b) :
    ∀ xs ys, lexCmp cmp xs ys = .eq → xs = ys
  | [], [], _ => rfl
  | [], _ :: _, h => by simp [lexCmp] at h
  | _ :: _, [], h => by simp [lexCmp] at h
  | a :: as, b :: bs, h => by
    simp only [lexCmp] at h
    cases hab : cmp a b with
    | eq =>
      rw [hab] at h
      rw [heq a b hab, lexCmp_eq cmp heq as bs h]
    | lt => rw [hab] at h; exact absurd h (by simp)
    | gt => rw [hab] at h; exact absurd h (by simp)

theorem lexCmp_lt_trans (cmp : α → α → Ordering)
    (heq : ∀ a b, cmp a b = .eq → a = b)
    (htrans : ∀ {a b c}, cmp a b = .lt → cmp b c = .lt → cmp a c = .lt) :
    ∀ {xs ys zs : List α}, lexCmp cmp xs ys = .lt →
      lexCmp cmp ys zs = .lt → lexCmp cmp xs zs = .lt
  | [], [], _ :: _, _, _ => rfl
  | [], _ :: _, _ :: _, _, _ => rfl
  | _ :: _, [], _, h₁, _ => by simp [lexCmp] at h₁
  | _, _ :: _, [], _, h₂ => by simp [lexCmp] at h₂
  | [], [], [], h₁, _ => by simp [lexCmp] at h₁
  | a :: as, b :: bs, c :: cs, h₁, h₂ => by
    rw [lexCmp_cons] at h₁ h₂ ⊢
    cases hab : cmp a b with
    | eq =>
      rw [hab] at h₁
      cases heq a b hab
      cases hac : cmp a c with
      | eq =>
        rw [hac] at h₂
        exact lexCmp_lt_trans cmp heq htrans h₁ h₂
      | lt => rfl
      | gt => rw [hac] at h₂; exact Ordering.noConfusion h₂
    | lt =>
      rw [hab] at h₁
      cases hbc : cmp b c with
      | eq =>
        cases heq b c hbc
        rw [hab]
      | lt => rw [htrans hab hbc]
      | gt => rw [hbc] at h₂; exact Ordering.noConfusion h₂
    | gt => rw [hab] at h₁; exact Ordering.noConfusion h₁

/-- Derived: `le`-style transitivity for a lexicographic comparator. -/
theorem lexCmp_le_trans (cmp : α → α → Ordering)
    (heq : ∀ a b, cmp a b = .eq → a = b)
    (htrans : ∀ {a b c}, cmp a b = .lt → cmp b c = .lt → cmp a c = .lt)
    {xs ys zs : List α} (h₁ : lexCmp cmp xs ys ≠ .gt)
    (h₂ : lexCmp cmp ys zs ≠ .gt) : lexCmp cmp xs zs ≠ .gt := by
  cases hxy : lexCmp cmp xs ys with
  | gt => exact absurd hxy h₁
  | eq => rw [lexCmp_eq cmp heq xs ys hxy]; exact h₂
  | lt =>
    cases hyz : lexCmp cmp ys zs with
    | gt => exact absurd hyz h₂
    | eq => rw [← lexCmp_eq cmp heq ys zs hyz]; simp [hxy]
    | lt =>
      have := lexCmp_lt_trans cmp heq htrans hxy hyz
      simp [this]

theorem lexCmpChar_eq (xs ys : List Char) (h : lexCmp cmpChar xs ys = .eq) :
    xs = ys :=
  lexCmp_eq cmpChar cmpChar_eq xs ys h

instance : IsTrans StatusItem itemLe where
  trans _ _ _ h₁ h₂ :=
    lexCmp_le_trans (lexCmp cmpChar)
      lexCmpChar_eq
      (fun h₁ h₂ => lexCmp_lt_trans cmpChar cmpChar_eq cmpChar_lt_trans h₁ h₂)
      h₁ h₂

instance : IsTotal StatusItem itemLe where
  total a b := by
    unfold itemLe pathCmp
    rw [lexCmp_swap (lexCmp cmpChar)
      (lexCmp_swap cmpChar cmpChar_swap)
      (pathComponents a.path) (pathComponents b.path)]
    cases lexCmp (lexCmp cmpChar) (pathComponents a.path) (pathComponents b.path) <;>
      simp [Ordering.swap]

/-! ## The status engine (status.rs:171-286)

`get_status` opens a gix repository and, depending on `status_type`,
drains one of three iterators/callbacks, classifies each produced item,
and finally sorts the accumulated `Vec<StatusItem>`.  The iterator
contents are external repository state; we pass them in as the
`GixRepoModel` below.  The untracked-files policy only influences which
items the external iterators yield, so it is already folded into the
item lists. -/

/-- One item of `gix::status::into_index_worktree_iter` as consumed by
the `WorkingDir` arm (status.rs:201-219): its `rela_path()` and its
optional `summary()`. -/
structure IWItem where
  rela_path : String
  summary : Option Summary
  deriving DecidableEq, Repr

/-- One item of `status.into_iter` as consumed by the `Both` arm
(status.rs:257-278): `gix::status::Item` is either an index-worktree
item or a tree-index change; `location()` is the repo-relative path. -/
inductive GixItem
  | IndexWorktree (location : String) (summary : Option Summary)
  | TreeIndex (location : String) (change : ChangeRefM)
  deriving DecidableEq, Repr

/-- `gix::status::Item::location()`. -/
def GixItem.location : GixItem → String
  | .IndexWorktree l _ => l
  | .TreeIndex l _ => l

/-- The external iterator contents backing one `get_status` query. -/
structure GixRepoModel where
  /-- items yielded by `status.into_index_worktree_iter` (`WorkingDir`
  arm); `Except.error` models an `Err` item of the iterator. -/
  iwItems : List (Except IterError IWItem)
  /-- changes delivered to the `tree_index_status` callback (`Stage`
  arm); this callback interface has no per-item error channel. -/
  stageChanges : List ChangeRefM
  /-- items yielded by `status.into_iter` (`Both` arm). -/
  bothItems : List (Except IterError GixItem)

/-- The `WorkingDir` loop (status.rs:204-218): an `Err` item is logged
with `log::warn!` and skipped via `continue`; an `Ok` item contributes a
record iff its `summary()` is `Some`. -/
def collectWorkingDir : List (Except IterError IWItem) → List StatusItem
  | [] => []
  | Except.error _ :: rest => collectWorkingDir rest
  | Except.ok item :: rest =>
    match item.summary with
    | some s => ⟨item.rela_path, StatusItemType.ofSummary s⟩ :: collectWorkingDir rest
    | none => collectWorkingDir rest

/-- The `Stage` callback (status.rs:236-247): every change pushes a
record classified via `From<ChangeRef>`. -/
def collectStage (changes : List ChangeRefM) : List StatusItem :=
  changes.map fun cr => ⟨cr.location, StatusItemType.ofChangeRef cr⟩

/-- The `Both` loop (status.rs:260-277): `let item = item?` propagates
an `Err` item, aborting the whole query (converted to
`Error::GixStatusIter` by the `#[from]` impl in error.rs). -/
def collectBoth : List (Except IterError GixItem) → Except Error (List StatusItem)
  | [] => Except.ok []
  | Except.error e :: _ => Except.error (Error.GixStatusIter e)
  | Except.ok item :: rest => do
    let tail ← collectBoth rest
    match item with
    | GixItem.IndexWorktree l s =>
      match s with
      | some su => pure (⟨l, StatusItemType.ofSummary su⟩ :: tail)
      | none => pure tail
    | GixItem.TreeIndex l cr =>
      pure (⟨l, StatusItemType.ofChangeRef cr⟩ :: tail)

/-- The final sort (status.rs:281-283). -/
def sortStatus (items : List StatusItem) : List StatusItem :=
  items.insertionSort itemLe

/-- `get_status` (status.rs:171-286), as a function of the external
iterator contents: collect per mode, then sort. -/
def get_status (repo : GixRepoModel) (status_type : StatusType) :
    Except Error (List StatusItem) :=
  (match status_type with
   | StatusType.WorkingDir => Except.ok (collectWorkingDir repo.iwItems)
   | StatusType.Stage => Except.ok (collectStage repo.stageChanges)
   | StatusType.Both => collectBoth repo.bothItems).map sortStatus

/-! ## `is_workdir_clean` (status.rs:129-158) and its relation to
`get_status(WorkingDir)`

`is_workdir_clean` uses the git2 single-pass status scan
(`repo.statuses`) where `get_status` drains the gix index/worktree
iterator.  Both backends are external libraries; the spec's contract is
that on the same repository state, under the same untracked policy, they
enumerate the same set of changed paths.  We therefore model that shared
repository state abstractly and derive both backends' outputs from it. -/

/-- Modelled from the spec: the abstract worktree state both status
backends observe.  `changes` is the set of changed/untracked paths
visible under the untracked policy in effect (the policy is resolved
identically in both functions via `untracked_files_config_repo` when not
supplied); neither git2's `statuses` nor gix's index/worktree iterator
internals are in src/, so both are modelled as faithful enumerations of
this shared set. -/
structure RepoState where
  is_bare : Bool
  is_worktree : Bool
  changes : List (String × Summary)
  deriving DecidableEq, Repr

/-- Modelled from the spec: the git2 `repo.statuses(..)` entry list on a
given worktree state (one entry per changed path). -/
def git2Statuses (st : RepoState) : List (String × Summary) :=
  st.changes

/-- Modelled from the spec: the gix index/worktree iterator on the same
worktree state (one `Ok` item with a `Some` summary per changed path). -/
def gixIwItems (st : RepoState) : List (Except IterError IWItem) :=
  st.changes.map fun pc => Except.ok ⟨pc.1, some pc.2⟩

/-- The `GixRepoModel` a `get_status(WorkingDir)` query sees on worktree
state `st`. -/
def gixRepoOfState (st : RepoState) : GixRepoModel :=
  ⟨gixIwItems st, [], []⟩

/-- `is_workdir_clean` (status.rs:129-158): `true` immediately for a
bare repository without a worktree; otherwise the emptiness of the git2
status scan. -/
def is_workdir_clean (st : RepoState) : Bool :=
  if st.is_bare && !st.is_worktree then true
  else (git2Statuses st).isEmpty

/-! ## `discard_status` (status.rs:289-296) -/

/-- The state of a git2 repository handle as consumed by
`discard_status`: the tree of the commit `HEAD` peels to (`none` models
a repository with no commits, where `repo.head()` fails with git2's
unborn-branch error), plus worktree and index content. -/
structure Git2Repo where
  head_commit_tree : Option (List (String × String))
  worktree : List (String × String)
  index : List (String × String)
  deriving DecidableEq, Repr

/-- `discard_status` (status.rs:289-296): `repo.head()?.peel_to_commit()?`
propagates the git2 unborn-branch error through `From<git2::Error> for
Error` (error.rs:51-52) as `Error::Git`; otherwise
`repo.reset(commit, Hard, None)` sets worktree and index to the commit's
tree and the function returns `Ok(true)`.  The repository is threaded
explicitly to expose the reset effect. -/
def discard_status (repo : Git2Repo) : Except Error (Bool × Git2Repo) :=
  match repo.head_commit_tree with
  | none => Except.error (Error.Git GitError.unbornBranch)
  | some tree =>
    Except.ok (true, { repo with worktree := tree, index := tree })

/-! ## git2-hooks (git2-hooks/src/lib.rs)

Object ids are modelled by their 40-hex rendering (`Oid::to_string`). -/

/-- An object id, identified with its 40-hex display form. -/
abbrev Oid := String

/-- `HOOK_COMMIT_MSG_TEMP_FILE` (lib.rs:49). -/
def HOOK_COMMIT_MSG_TEMP_FILE : String := "COMMIT_EDITMSG"

/-- `str::repeat`: `s.repeat(n)`. -/
def strRepeat (s : String) (n : Nat) : String :=
  String.join (List.replicate n s)

/-- `PrePushRef` (lib.rs:61-67). -/
structure PrePushRef where
  local_ref : String
  local_oid : Option Oid
  remote_ref : String
  remote_oid : Option Oid
  deriving DecidableEq, Repr

/-- `PrePushRef::format_oid` (lib.rs:84-88): a missing oid renders as
the all-zeroes object name. -/
def PrePushRef.format_oid : Option Oid → String
  | none => strRepeat "0" 40
  | some id => id

/-- `PrePushRef::to_line` (lib.rs:90-98). -/
def PrePushRef.to_line (u : PrePushRef) : String :=
  u.local_ref ++ " " ++ PrePushRef.format_oid u.local_oid ++ " " ++
    u.remote_ref ++ " " ++ PrePushRef.format_oid u.remote_oid

/-- `PrePushRef::to_stdin` (lib.rs:101-108): for each update, push its
line then a newline onto the accumulating string. -/
def PrePushRef.to_stdin (updates : List PrePushRef) : String :=
  updates.foldl (fun stdin update => (stdin ++ update.to_line).push '\n') ""

/-- `HookRunResponse` (lib.rs:113-122). -/
structure HookRunResponse where
  hook : String
  stdout : String
  stderr : String
  code : Int
  deriving DecidableEq, Repr

/-- `HookRunResponse::is_successful` (lib.rs:139-144). -/
def HookRunResponse.is_successful (r : HookRunResponse) : Bool :=
  r.code == 0

/-- `git2_hooks::HookResult` (lib.rs:124-130). -/
inductive G2HHookResult
  | NoHookFound
  | Run (response : HookRunResponse)
  deriving DecidableEq, Repr

/-- Modelled from the spec: `HookPaths` (git2-hooks/src/hookspath.rs is
not part of src/).  Per the spec's `HookDescriptor`, resolution walks
`core.hooksPath`, then `<gitdir>/hooks`, then the caller-supplied
fallback paths, and yields whether an executable hook file was found
(`found`), the resolved hook directory (`git`, which holds the
`COMMIT_EDITMSG` temp file), the hook file path (`hook`) and the
invocation working directory (`pwd`: worktree root, or git-dir for bare
repositories). -/
structure HookPaths where
  found : Bool
  git : String
  hook : String
  pwd : String

/-- The external hook process for one invocation, as observed through
`HookPaths::run_hook*`: given the argv and the current content of the
`COMMIT_EDITMSG` temp file it returns the run response and the (possibly
rewritten) temp file content.  Hooks that do not touch the file return
the content unchanged. -/
structure HookExec where
  run : List String → String → HookRunResponse × String

/-- The temp file path used by the commit-message hooks
(lib.rs:195,297): `hook.git.join(HOOK_COMMIT_MSG_TEMP_FILE)`. -/
def commitMsgTempFile (paths : HookPaths) : String :=
  paths.git ++ "/" ++ HOOK_COMMIT_MSG_TEMP_FILE

/-- `hooks_commit_msg` (lib.rs:184-205): if no hook was found return
`NoHookFound`; otherwise write `msg` to the temp file, run the hook with
the temp file path as its only argument, then unconditionally replace
the message with the temp file's content.  Returns the hook result and
the final message. -/
def hooks_commit_msg (paths : HookPaths) (proc : HookExec) (msg : String) :
    G2HHookResult × String :=
  if !paths.found then (G2HHookResult.NoHookFound, msg)
  else
    let temp_file := commitMsgTempFile paths
    let (response, rewritten) := proc.run [temp_file] msg
    (G2HHookResult.Run response, rewritten)

/-- `PrepareCommitMsgSource` (lib.rs:274-280); the commit id carried by
`Commit` is modelled by its hex rendering. -/
inductive PrepareCommitMsgSource
  | Message
  | Template
  | Merge
  | Squash
  | Commit (id : Oid)
  deriving DecidableEq, Repr

/-- The token appended for the source kind (lib.rs:304-310). -/
def PrepareCommitMsgSource.token : PrepareCommitMsgSource → String
  | .Message => "message"
  | .Template => "template"
  | .Merge => "merge"
  | .Squash => "squash"
  | .Commit _ => "commit"

/-- The argv of the prepare-commit-msg hook (lib.rs:300-322): temp file
path, source token, and — only for the `Commit` source — the commit id. -/
def prepareCommitMsgArgs (paths : HookPaths) (source : PrepareCommitMsgSource) :
    List String :=
  [commitMsgTempFile paths, source.token] ++
    (match source with
     | PrepareCommitMsgSource.Commit id => [id]
     | _ => [])

/-- `hooks_prepare_commit_msg` (lib.rs:284-331): same temp-file protocol
as `hooks_commit_msg`, with the source token (and commit id) appended to
the argv; the message is re-read from the temp file regardless of the
hook's exit code. -/
def hooks_prepare_commit_msg (paths : HookPaths) (proc : HookExec)
    (source : PrepareCommitMsgSource) (msg : String) :
    G2HHookResult × String :=
  if !paths.found then (G2HHookResult.NoHookFound, msg)
  else
    let (response, rewritten) := proc.run (prepareCommitMsgArgs paths source) msg
    (G2HHookResult.Run response, rewritten)

/-! ## asyncgit hooks layer (asyncgit/src/sync/hooks.rs) -/

/-- `asyncgit::sync::HookResult` (hooks.rs:19-25). -/
inductive HookResult
  | Ok
  | NotOk (s : String)
  deriving DecidableEq, Repr

/-- `impl From<git2_hooks::HookResult> for HookResult` (hooks.rs:27-49):
`NoHookFound` and successful runs map to `Ok`; a failing run maps to
`NotOk` carrying stdout/stderr merged exactly as in the source. -/
def HookResult.ofGit2Hooks : G2HHookResult → HookResult
  | G2HHookResult.NoHookFound => HookResult.Ok
  | G2HHookResult.Run response =>
    if response.is_successful then HookResult.Ok
    else
      HookResult.NotOk
        (if response.stderr = "" then response.stdout
         else if response.stdout = "" then response.stderr
         else response.stdout ++ "\n" ++ response.stderr)

/-- Modelled from the spec: `PushDefaultStrategyConfig`
(asyncgit/src/sync/config.rs is not part of src/).  Only the
`push.default=upstream` versus anything-else distinction matters to
`get_remote_ref_for_push`. -/
inductive PushDefaultStrategyConfig
  | Simple
  | Upstream
  deriving DecidableEq, Repr

/-- `git2::Remote` as consumed by `hooks_pre_push` (hooks.rs:179-188):
its optional push url and url. -/
structure GitRemote where
  pushurl : Option String
  url : Option String
  deriving DecidableEq, Repr

/-- A `git2::Reference` as consumed by `pre_push_tag_updates`
(hooks.rs:260-262): its direct target and the commit it peels to. -/
structure GitReference where
  target : Option Oid
  peel_to_commit : Option Oid
  deriving DecidableEq, Repr

/-- The repository/remote environment of one `hooks_pre_push` call.
Each field is the observable outcome of one external query made by
hooks.rs; `Except Error` fields model fallible calls. -/
structure PushRepo where
  /-- `git2_hooks::hook_available(&repo, None, HOOK_PRE_PUSH)` (hooks.rs:171-175). -/
  hook_available : Except Error Bool
  /-- `repo.find_remote(remote)` (hooks.rs:179). -/
  find_remote : Except Error GitRemote
  /-- `advertised_remote_refs(..)` (hooks.rs:52-78,190-195): the remote's
  advertised ref → oid map. -/
  advertised_remote_refs : Except Error (List (String × Oid))
  /-- `push_default_strategy_config_repo(&repo)` (hooks.rs:97-98). -/
  push_default_strategy : Except Error PushDefaultStrategyConfig
  /-- `get_branch_upstream_merge(repo_path, branch)` (hooks.rs:102-103). -/
  upstream_merge : String → Except Error (Option String)
  /-- `repo.find_branch(name, Local).get().peel_to_commit().id()`
  (hooks.rs:236-239), with both failure modes collapsed to `none` as the
  source's `.ok()`/`.and_then` chain does. -/
  find_branch_commit : String → Option Oid
  /-- `tags_missing_remote(repo_path, remote, None)` (hooks.rs:256). -/
  tags_missing_remote : Except Error (List String)
  /-- `repo.find_reference(&tag_ref)` (hooks.rs:260), `none` modelling
  the `Err` the source skips with `if let Ok`. -/
  find_reference : String → Option GitReference
  /-- `git2_hooks::hooks_pre_push(&repo, None, Some(remote), url, updates)`
  (hooks.rs:213-220), as a function of remote name, url and updates. -/
  run_pre_push : String → String → List PrePushRef → Except HooksError G2HHookResult

/-- `HashMap::get(..).copied()` on the advertised-refs map. -/
def oidLookup (advertised : List (String × Oid)) (key : String) : Option Oid :=
  (advertised.find? fun p => p.1 == key).map fun p => p.2

/-- `PrePushTarget` (hooks.rs:279-289). -/
inductive PrePushTarget
  | Branch (branch : String) (delete : Bool)
  | Tags
  deriving DecidableEq, Repr

/-- `get_remote_ref_for_push` (hooks.rs:85-113): delete pushes always
use `refs/heads/<branch>`; otherwise, under `push.default=upstream` with
a configured upstream merge ref, that ref is used, else the default. -/
def get_remote_ref_for_push (repo : PushRepo) (branch : String)
    (delete : Bool) : Except Error String :=
  if delete then Except.ok ("refs/heads/" ++ branch)
  else
    match repo.push_default_strategy with
    | Except.error e => Except.error e
    | Except.ok strategy =>
      if strategy = PushDefaultStrategyConfig.Upstream then
        match repo.upstream_merge branch with
        | Except.ok (some upstream_ref) => Except.ok upstream_ref
        | _ => Except.ok ("refs/heads/" ++ branch)
      else Except.ok ("refs/heads/" ++ branch)

/-- `pre_push_branch_update` (hooks.rs:224-247): `local_oid` is `None`
for a delete push, and otherwise whatever the find-branch/peel chain
yields (`None` on any failure); `remote_oid` is the advertised map
lookup. -/
def pre_push_branch_update (repo : PushRepo) (branch_name remote_ref : String)
    (delete : Bool) (advertised : List (String × Oid)) :
    Except Error PrePushRef :=
  let local_ref := "refs/heads/" ++ branch_name
  let local_oid := if delete then none else repo.find_branch_commit branch_name
  let remote_oid := oidLookup advertised remote_ref
  Except.ok ⟨local_ref, local_oid, remote_ref, remote_oid⟩

/-- `pre_push_tag_updates` (hooks.rs:250-276): for each tag missing on
the remote whose reference resolves, build an update from its direct
target (or the peeled commit) and the advertised map. -/
def pre_push_tag_updates (repo : PushRepo)
    (advertised : List (String × Oid)) : Except Error (List PrePushRef) :=
  match repo.tags_missing_remote with
  | Except.error e => Except.error e
  | Except.ok tags =>
    Except.ok (tags.filterMap fun tag_ref =>
      match repo.find_reference tag_ref with
      | none => none
      | some reference =>
        let tag_oid :=
          match reference.target with
          | some t => some t
          | none => reference.peel_to_commit
        some ⟨tag_ref, tag_oid, tag_ref, oidLookup advertised tag_ref⟩)

/-- `hooks_pre_push` (hooks.rs:162-221): bail out with `Ok` when no
pre-push hook is available — before resolving the remote, connecting, or
building updates; otherwise resolve the url, fetch advertised refs,
build the updates for the push target, and run the hook. -/
def hooks_pre_push (repo : PushRepo) (remote : String)
    (push : PrePushTarget) : Except Error HookResult := do
  let available ← repo.hook_available
  if !available then
    return HookResult.Ok
  let git_remote ← repo.find_remote
  let url ←
    match git_remote.pushurl with
    | some u => pure u
    | none =>
      match git_remote.url with
      | some u => pure u
      | none =>
        Except.error
          (Error.Generic ("remote '" ++ remote ++ "' has no URL configured"))
  let advertised ← repo.advertised_remote_refs
  let updates ←
    match push with
    | PrePushTarget.Branch branch delete => do
      let remote_ref ← get_remote_ref_for_push repo branch delete
      let update ← pre_push_branch_update repo branch remote_ref delete advertised
      pure [update]
    | PrePushTarget.Tags => pre_push_tag_updates repo advertised
  match repo.run_pre_push remote url updates with
  | Except.error e => Except.error (Error.Hooks e)
  | Except.ok result => Except.ok (HookResult.ofGit2Hooks result)

/-! ## General helpers -/

instance instDecEqExcept {ε α : Type} [DecidableEq ε] [DecidableEq α] :
    DecidableEq (Except ε α) := fun x y =>
  match x, y with
  | Except.ok a, Except.ok b =>
    if h : a = b then isTrue (by rw [h])
    else isFalse (fun hh => by cases hh; exact h rfl)
  | Except.error a, Except.error b =>
    if h : a = b then isTrue (by rw [h])
    else isFalse (fun hh => by cases hh; exact h rfl)
  | Except.ok _, Except.error _ => isFalse (fun hh => by cases hh)
  | Except.error _, Except.ok _ => isFalse (fun hh => by cases hh)

theorem string_join_cons (s : String) (l : List String) :
    String.join (s :: l) = s ++ String.join l := by
  apply String.ext
  simp [String.join_eq]

/-! ## Specification-side definitions used by refinement claims -/

/-- The oid rendering the spec's wire-format section prescribes: the id
itself, or the all-zeroes object name for an absent oid. -/
def specOidOrZeros : Option Oid → String
  | some id => id
  | none => "0000000000000000000000000000000000000000"

/-- One line of the pre-push stdin wire format as the spec words it:
`<local-ref> SP <local-oid-or-40-zeros> SP <remote-ref> SP
<remote-oid-or-40-zeros> LF`. -/
def specPrePushLine (u : PrePushRef) : String :=
  u.local_ref ++ " " ++ specOidOrZeros u.local_oid ++ " " ++
    u.remote_ref ++ " " ++ specOidOrZeros u.remote_oid ++ "\n"

theorem specPrePushLine_eq (u : PrePushRef) :
    specPrePushLine u = u.to_line ++ "\n" := by
  have hz : ∀ o : Option Oid, specOidOrZeros o = PrePushRef.format_oid o := by
    intro o
    cases o with
    | none => decide
    | some id => rfl
  simp [specPrePushLine, PrePushRef.to_line, hz, String.append_assoc]

theorem to_stdin_foldl_aux (updates : List PrePushRef) :
    ∀ acc : String,
      updates.foldl (fun stdin update => (stdin ++ update.to_line).push '\n') acc =
        acc ++ String.join (updates.map specPrePushLine) := by
  induction updates with
  | nil =>
    intro acc
    simp [String.join, String.append_empty]
  | cons u us ih =>
    intro acc
    have hpush : (acc ++ u.to_line).push '\n' = acc ++ specPrePushLine u := by
      rw [specPrePushLine_eq]
      rw [← String.append_assoc]
      rfl
    simp only [List.foldl_cons, List.map_cons, ih, hpush]
    rw [string_join_cons, String.append_assoc]

/-! ## C6: pre-push stdin wire format -/

/-- C6: for every sequence of updates, `PrePushRef::to_stdin` is exactly
the concatenation of one wire-format line per update — `<local-ref> SP
<local-oid> SP <remote-ref> SP <remote-oid> LF`, where an absent oid
renders as the 40-zero object name — with nothing after the final LF. -/
theorem pre_push_stdin_wire_format (updates : List PrePushRef) :
    PrePushRef.to_stdin updates = String.join (updates.map specPrePushLine) ∧
    PrePushRef.format_oid none = "0000000000000000000000000000000000000000" := by
  constructor
  · unfold PrePushRef.to_stdin
    rw [to_stdin_foldl_aux]
    rfl
  · decide

/-! ## C7: discard_status on a repository with no commits -/

/-- A repository with no commits (unborn HEAD) and a dirty worktree. -/
def noHeadRepo : Git2Repo :=
  ⟨none, [("README.md", "modified")], []⟩

/-- C7 counterexample: on a repository with no commits, `discard_status`
fails with `Error::Git` (the git2 unborn-branch error propagated by
`repo.head()?` through `From<git2::Error>`), not with `Error::NoHead` as
the claim states. -/
theorem discard_status_error_not_nohead :
    discard_status noHeadRepo = Except.error (Error.Git GitError.unbornBranch) ∧
    discard_status noHeadRepo ≠ Except.error Error.NoHead := by
  exact ⟨rfl, by decide⟩

/-- C7 amended: with no commits, `discard_status` fails with the
`Error::Git`-wrapped git2 unborn-HEAD error; with a HEAD commit it
hard-resets worktree and index to that commit's tree and returns
`Ok(true)`. -/
theorem discard_status_spec (repo : Git2Repo) :
    (repo.head_commit_tree = none →
      discard_status repo = Except.error (Error.Git GitError.unbornBranch)) ∧
    (∀ tree, repo.head_commit_tree = some tree →
      discard_status repo =
        Except.ok (true, { repo with worktree := tree, index := tree })) := by
  constructor
  · intro h
    unfold discard_status
    rw [h]
  · intro tree h
    unfold discard_status
    rw [h]

/-- A repository whose HEAD commit tree differs from its dirty worktree
and index. -/
def headRepo : Git2Repo :=
  ⟨some [("a.txt", "clean")], [("a.txt", "dirty")], [("a.txt", "staged")]⟩

/-- C7 witness: `discard_status_spec` applied to a concrete repository
with a HEAD commit. -/
theorem discard_status_spec_witness :
    headRepo.head_commit_tree = some [("a.txt", "clean")] ∧
    discard_status headRepo =
      Except.ok (true,
        { headRepo with
            worktree := [("a.txt", "clean")], index := [("a.txt", "clean")] }) :=
  ⟨rfl, (discard_status_spec headRepo).2 [("a.txt", "clean")] rfl⟩

/-! ## C8: delete pushes always target refs/heads/<branch> -/

/-- C8: for every repository configuration (including
`push.default=upstream` with any configured upstream merge ref) and
every branch, a delete push resolves its remote ref to
`refs/heads/<branch>`; the upstream merge ref can only influence
non-delete pushes. -/
theorem delete_push_remote_ref_is_simple (repo : PushRepo) (branch : String) :
    get_remote_ref_for_push repo branch true =
      Except.ok ("refs/heads/" ++ branch) := rfl

/-! ## C3: classification of renames per backend -/

/-- C3 counterexample: the HEAD-tree-vs-index (`Stage`) backend's
`From<ChangeRef>` maps a `Rewrite` (rename) to `Modified`, not to
`Renamed` as the claim states. -/
theorem tree_index_rewrite_not_renamed :
    StatusItemType.ofChangeRef (ChangeRefM.Rewrite "old.rs" "new.rs") =
      StatusItemType.Modified ∧
    StatusItemType.ofChangeRef (ChangeRefM.Rewrite "old.rs" "new.rs") ≠
      StatusItemType.Renamed := by
  exact ⟨rfl, by decide⟩

/-- C3 amended: the gix index-worktree `Summary` backend, the git2
status-flag backend (when no new/deleted flag pre-empts it) and the git2
`Delta` backend classify renames as `Renamed`; the gix
HEAD-tree-vs-index `ChangeRef` backend classifies rewrites as
`Modified`. -/
theorem rename_classification_per_backend :
    StatusItemType.ofSummary Summary.Renamed = StatusItemType.Renamed ∧
    StatusItemType.ofDelta Delta.Renamed = StatusItemType.Renamed ∧
    (∀ s : Git2Status,
      (s.is_index_renamed || s.is_wt_renamed) = true →
      (s.is_index_new || s.is_wt_new) = false →
      (s.is_index_deleted || s.is_wt_deleted) = false →
      StatusItemType.ofStatus s = StatusItemType.Renamed) ∧
    (∀ source_location location,
      StatusItemType.ofChangeRef (ChangeRefM.Rewrite source_location location) =
        StatusItemType.Modified) := by
  refine ⟨rfl, rfl, ?_, fun _ _ => rfl⟩
  intro s h1 h2 h3
  simp [StatusItemType.ofStatus, h1, h2, h3]

/-- A git2 status word with only the index-renamed bit set. -/
def renamedOnlyStatus : Git2Status :=
  ⟨false, false, false, false, true, false, false, false, false⟩

/-- C3 witness: `rename_classification_per_backend` applied to the
status word with only the index-renamed bit set. -/
theorem rename_classification_witness :
    (renamedOnlyStatus.is_index_renamed || renamedOnlyStatus.is_wt_renamed) = true ∧
    (renamedOnlyStatus.is_index_new || renamedOnlyStatus.is_wt_new) = false ∧
    (renamedOnlyStatus.is_index_deleted || renamedOnlyStatus.is_wt_deleted) = false ∧
    StatusItemType.ofStatus renamedOnlyStatus = StatusItemType.Renamed :=
  ⟨rfl, rfl, rfl,
    rename_classification_per_backend.2.2.1 renamedOnlyStatus rfl rfl rfl⟩

/-! ## C5: commit-msg / prepare-commit-msg temp-file protocol -/

/-- C5: when a commit-msg (or prepare-commit-msg) hook is found, the
runner uses the fixed temp file `COMMIT_EDITMSG` inside the resolved
hook directory, passes that path as the first argument, runs the hook,
and the returned message is the temp file's content after the hook ran —
for every hook behaviour, hence regardless of the exit code. -/
theorem commit_msg_temp_file_readback
    (paths : HookPaths) (proc : HookExec) (msg : String)
    (source : PrepareCommitMsgSource) (hfound : paths.found = true) :
    commitMsgTempFile paths = paths.git ++ "/" ++ "COMMIT_EDITMSG" ∧
    (prepareCommitMsgArgs paths source).head? = some (commitMsgTempFile paths) ∧
    hooks_commit_msg paths proc msg =
      (G2HHookResult.Run (proc.run [commitMsgTempFile paths] msg).1,
        (proc.run [commitMsgTempFile paths] msg).2) ∧
    hooks_prepare_commit_msg paths proc source msg =
      (G2HHookResult.Run (proc.run (prepareCommitMsgArgs paths source) msg).1,
        (proc.run (prepareCommitMsgArgs paths source) msg).2) := by
  unfold hooks_commit_msg hooks_prepare_commit_msg
  rw [hfound]
  exact ⟨rfl, rfl, rfl, rfl⟩

/-- A hook that rewrites the message file to `"msg\n"`, prints
`rejected` and exits 1 (mirroring the repository's own
`test_hooks_commit_msg_reject` scenario). -/
def rejectEditProc : HookExec :=
  ⟨fun _ _ => (⟨".git/hooks/commit-msg", "rejected\n", "", 1⟩, "msg\n")⟩

/-- A resolved hook-paths value for a found commit-msg hook. -/
def foundHookPaths : HookPaths :=
  ⟨true, ".git/hooks", ".git/hooks/commit-msg", "."⟩

/-- C5 witness: a rejecting hook (exit code 1) still gets its rewritten
message taken over. -/
theorem commit_msg_temp_file_readback_witness :
    foundHookPaths.found = true ∧
    hooks_commit_msg foundHookPaths rejectEditProc "test" =
      (G2HHookResult.Run ⟨".git/hooks/commit-msg", "rejected\n", "", 1⟩, "msg\n") :=
  ⟨rfl,
    (commit_msg_temp_file_readback foundHookPaths rejectEditProc "test"
      PrepareCommitMsgSource.Message rfl).2.2.1⟩

/-! ## C9: missing hook is indistinguishable from a successful hook -/

/-- C9: `git2_hooks::HookResult::NoHookFound` converts to
`HookResult::Ok`, exactly like a run that exited 0; and with no pre-push
hook available, `hooks_pre_push` returns `Ok` for every environment —
in particular also when remote resolution, the advertised-refs handshake
or branch lookup would fail, i.e. without connecting or building
updates. -/
theorem no_hook_found_is_ok :
    HookResult.ofGit2Hooks G2HHookResult.NoHookFound = HookResult.Ok ∧
    (∀ response : HookRunResponse, response.code = 0 →
      HookResult.ofGit2Hooks (G2HHookResult.Run response) = HookResult.Ok) ∧
    (∀ (repo : PushRepo) (remote : String) (push : PrePushTarget),
      repo.hook_available = Except.ok false →
      hooks_pre_push repo remote push = Except.ok HookResult.Ok) := by
  refine ⟨rfl, ?_, ?_⟩
  · intro response h
    simp [HookResult.ofGit2Hooks, HookRunResponse.is_successful, h]
  · intro repo remote push h
    unfold hooks_pre_push
    rw [h]
    rfl

/-- An environment with no pre-push hook where every external query
would fail: `hooks_pre_push` must return `Ok` without touching any of
them. -/
def noHookRepo : PushRepo where
  hook_available := Except.ok false
  find_remote := Except.error (Error.Git (GitError.generic 1))
  advertised_remote_refs := Except.error (Error.Git (GitError.generic 2))
  push_default_strategy := Except.error (Error.Git (GitError.generic 3))
  upstream_merge := fun _ => Except.error (Error.Git (GitError.generic 4))
  find_branch_commit := fun _ => none
  tags_missing_remote := Except.error (Error.Git (GitError.generic 5))
  find_reference := fun _ => none
  run_pre_push := fun _ _ _ => Except.error (HooksError.mk 6)

/-- C9 witness: `no_hook_found_is_ok` applied to a zero-exit run and to
the all-failing no-hook environment. -/
theorem no_hook_found_is_ok_witness :
    HookRunResponse.code ⟨"h", "out", "err", 0⟩ = 0 ∧
    HookResult.ofGit2Hooks (G2HHookResult.Run ⟨"h", "out", "err", 0⟩) =
      HookResult.Ok ∧
    noHookRepo.hook_available = Except.ok false ∧
    hooks_pre_push noHookRepo "origin" (PrePushTarget.Branch "master" false) =
      Except.ok HookResult.Ok :=
  ⟨rfl, no_hook_found_is_ok.2.1 ⟨"h", "out", "err", 0⟩ rfl, rfl,
    no_hook_found_is_ok.2.2 noHookRepo "origin"
      (PrePushTarget.Branch "master" false) rfl⟩

/-! ## C10: a missing local branch serializes like a deletion -/

/-- C10: for a non-delete push whose branch lookup / peel fails,
`pre_push_branch_update` still succeeds with `local_oid = None`; the
resulting update is identical to the one built for a delete push, and
`format_oid` renders that `None` as the 40-zero object name — the wire
encoding of a deletion. -/
theorem missing_branch_serializes_as_zero_oid
    (repo : PushRepo) (branch remote_ref : String)
    (advertised : List (String × Oid))
    (h : repo.find_branch_commit branch = none) :
    pre_push_branch_update repo branch remote_ref false advertised =
      Except.ok
        ⟨"refs/heads/" ++ branch, none, remote_ref,
          oidLookup advertised remote_ref⟩ ∧
    pre_push_branch_update repo branch remote_ref false advertised =
      pre_push_branch_update repo branch remote_ref true advertised ∧
    PrePushRef.format_oid none = strRepeat "0" 40 := by
  unfold pre_push_branch_update
  rw [if_neg (by decide : ¬(false = true))]
  rw [h]
  exact ⟨rfl, rfl, rfl⟩

/-- An environment whose branch lookup fails for every name. -/
def missingBranchRepo : PushRepo where
  hook_available := Except.ok true
  find_remote := Except.ok ⟨none, some "https://example.com/repo.git"⟩
  advertised_remote_refs := Except.ok []
  push_default_strategy := Except.ok PushDefaultStrategyConfig.Simple
  upstream_merge := fun _ => Except.ok none
  find_branch_commit := fun _ => none
  tags_missing_remote := Except.ok []
  find_reference := fun _ => none
  run_pre_push := fun _ _ _ => Except.ok G2HHookResult.NoHookFound

/-- C10 witness: `missing_branch_serializes_as_zero_oid` at a concrete
environment and branch. -/
theorem missing_branch_zero_oid_witness :
    missingBranchRepo.find_branch_commit "gone" = none ∧
    pre_push_branch_update missingBranchRepo "gone" "refs/heads/gone" false [] =
      Except.ok ⟨"refs/heads/gone", none, "refs/heads/gone", none⟩ :=
  ⟨rfl,
    (missing_branch_serializes_as_zero_oid missingBranchRepo "gone"
      "refs/heads/gone" [] rfl).1⟩

/-! ## C1: per-item enumeration errors -/

/-- `collectWorkingDir` distributes over append. -/
theorem collectWorkingDir_append (xs ys : List (Except IterError IWItem)) :
    collectWorkingDir (xs ++ ys) = collectWorkingDir xs ++ collectWorkingDir ys := by
  induction xs with
  | nil => rfl
  | cons x rest ih =>
    cases x with
    | error e => simpa [collectWorkingDir] using ih
    | ok item =>
      cases hs : item.summary <;>
        simp [collectWorkingDir, hs, ih]

/-- A `Both`-mode query whose iterator yields an error item followed by
an ordinary modified-file item. -/
def bothErrRepo : GixRepoModel :=
  ⟨[], [],
    [Except.error (IterError.mk 0),
     Except.ok (GixItem.IndexWorktree "other.txt" (some Summary.Modified))]⟩

/-- C1 counterexample: in `Both` mode a single erroring item makes the
whole query fail (`let item = item?` at status.rs:261) instead of being
skipped — the remaining path `other.txt` is not reported. -/
theorem both_mode_item_error_aborts :
    get_status bothErrRepo StatusType.Both =
      Except.error (Error.GixStatusIter (IterError.mk 0)) ∧
    get_status bothErrRepo StatusType.Both ≠
      Except.ok [⟨"other.txt", StatusItemType.Modified⟩] := by
  exact ⟨rfl, by decide⟩

/-- In `Both` mode, the first erroring item — preceded by an arbitrary
run of `Ok` items — aborts the collection with exactly that item's
error. -/
theorem collectBoth_first_error_aborts (pre : List GixItem) (e : IterError)
    (rest : List (Except IterError GixItem)) :
    collectBoth (pre.map Except.ok ++ Except.error e :: rest) =
      Except.error (Error.GixStatusIter e) := by
  induction pre with
  | nil => rfl
  | cons item pre ih =>
    simp only [List.map_cons, List.cons_append, collectBoth, List.append_eq, ih]
    rfl

/-- C1 amended: only the `WorkingDir` arm skips per-item enumeration
errors — removing an error item at any position does not change its
(always `Ok`) result; in `Both` mode the first erroring item, wherever
it sits after any run of `Ok` items, aborts the query with
`Err(Error::GixStatusIter)` carrying that item's error; the `Stage`
callback interface has no per-item error channel. -/
theorem workingdir_skips_item_errors :
    (∀ (iw₁ iw₂ : List (Except IterError IWItem)) (e : IterError)
       (stage : List ChangeRefM) (both : List (Except IterError GixItem)),
      get_status ⟨iw₁ ++ Except.error e :: iw₂, stage, both⟩ StatusType.WorkingDir =
        get_status ⟨iw₁ ++ iw₂, stage, both⟩ StatusType.WorkingDir) ∧
    (∀ repo : GixRepoModel,
      (get_status repo StatusType.WorkingDir).isOk = true) ∧
    (∀ (iw : List (Except IterError IWItem)) (stage : List ChangeRefM)
       (pre : List GixItem) (e : IterError)
       (rest : List (Except IterError GixItem)),
      get_status ⟨iw, stage, pre.map Except.ok ++ Except.error e :: rest⟩
          StatusType.Both =
        Except.error (Error.GixStatusIter e)) := by
  refine ⟨?_, fun _ => rfl, ?_⟩
  · intro iw₁ iw₂ e stage both
    simp only [get_status, collectWorkingDir_append]
    rfl
  · intro iw stage pre e rest
    simp only [get_status, collectBoth_first_error_aborts]
    rfl

/-! ## C2: the output order of get_status -/

/-- A `WorkingDir` query over the two modified paths `a-b` and `a/c`:
bytewise `"a-b" < "a/c"` (0x2D < 0x2F) but component-wise
`["a", "c"] < ["a-b"]`. -/
def slashRepo : GixRepoModel :=
  ⟨[Except.ok ⟨"a-b", some Summary.Modified⟩,
    Except.ok ⟨"a/c", some Summary.Modified⟩], [], []⟩

/-- A `Both`-mode query where the same path changed both in the
worktree-vs-index diff and in the tree-vs-index diff. -/
def dupPathRepo : GixRepoModel :=
  ⟨[], [],
    [Except.ok (GixItem.IndexWorktree "dup.txt" (some Summary.Modified)),
     Except.ok (GixItem.TreeIndex "dup.txt" (ChangeRefM.Modification "dup.txt"))]⟩

/-- C2 counterexample: `get_status` orders `a/c` before `a-b`, so its
output is not sorted by byte/codepoint-wise comparison of the path
strings (which would put `a-b` first); the comparison is component-wise
(`Path::cmp`).  Moreover in `Both` mode a path present in both diffs
appears twice, so the output is not strictly ascending either. -/
theorem get_status_not_bytewise_sorted :
    get_status slashRepo StatusType.WorkingDir =
      Except.ok [⟨"a/c", StatusItemType.Modified⟩,
                 ⟨"a-b", StatusItemType.Modified⟩] ∧
    ¬ List.Sorted byteLe
        [⟨"a/c", StatusItemType.Modified⟩, ⟨"a-b", StatusItemType.Modified⟩] ∧
    List.Sorted byteLe
        [⟨"a-b", StatusItemType.Modified⟩, ⟨"a/c", StatusItemType.Modified⟩] ∧
    get_status dupPathRepo StatusType.Both =
      Except.ok [⟨"dup.txt", StatusItemType.Modified⟩,
                 ⟨"dup.txt", StatusItemType.Modified⟩] := by
  refine ⟨by decide, by decide, by decide, by decide⟩

/-- C2 amended: in every mode, every successful `get_status` result is
sorted ascending (non-strictly: `Both` mode may repeat a path) by Rust's
`std::path::Path` ordering — lexicographic over `/`-separated
components, bytewise within a component — not by bytewise comparison of
the whole path string. -/
theorem get_status_sorted_by_path_components
    (repo : GixRepoModel) (status_type : StatusType)
    (items : List StatusItem)
    (h : get_status repo status_type = Except.ok items) :
    List.Sorted itemLe items := by
  have hs : ∀ l : List StatusItem, List.Sorted itemLe (sortStatus l) :=
    fun l => List.sorted_insertionSort itemLe l
  unfold get_status at h
  cases status_type with
  | WorkingDir =>
    simp only [Except.map] at h
    cases h
    exact hs _
  | Stage =>
    simp only [Except.map] at h
    cases h
    exact hs _
  | Both =>
    simp only [] at h
    cases hb : collectBoth repo.bothItems with
    | error e => rw [hb] at h; simp [Except.map] at h
    | ok l =>
      rw [hb] at h
      simp only [Except.map] at h
      cases h
      exact hs _

/-- C2 witness: `get_status_sorted_by_path_components` at the concrete
`slashRepo` query. -/
theorem get_status_sorted_witness :
    get_status slashRepo StatusType.WorkingDir =
      Except.ok [⟨"a/c", StatusItemType.Modified⟩,
                 ⟨"a-b", StatusItemType.Modified⟩] ∧
    List.Sorted itemLe
      [⟨"a/c", StatusItemType.Modified⟩, ⟨"a-b", StatusItemType.Modified⟩] :=
  ⟨by decide,
    get_status_sorted_by_path_components slashRepo StatusType.WorkingDir
      [⟨"a/c", StatusItemType.Modified⟩, ⟨"a-b", StatusItemType.Modified⟩]
      (by decide)⟩

/-! ## C4: is_workdir_clean versus get_status(WorkingDir) -/

/-- On the shared abstract worktree state, the gix iterator items
collect to one record per changed path. -/
theorem collectWorkingDir_gixIwItems (st : RepoState) :
    collectWorkingDir (gixIwItems st) =
      st.changes.map fun pc => ⟨pc.1, StatusItemType.ofSummary pc.2⟩ := by
  unfold gixIwItems
  induction st.changes with
  | nil => rfl
  | cons pc rest ih =>
    simp [collectWorkingDir, ih]

/-- `sortStatus` returns the empty list exactly on the empty list. -/
theorem sortStatus_eq_nil_iff (l : List StatusItem) :
    sortStatus l = [] ↔ l = [] := by
  constructor
  · intro h
    have hp := List.perm_insertionSort itemLe l
    rw [sortStatus] at h
    rw [h] at hp
    exact (List.Perm.nil_eq hp).symm
  · intro h
    rw [h]
    rfl

/-- C4: `is_workdir_clean` (git2 single-pass scan backend) is `true` for
every bare repository without a worktree, and on every other repository
state agrees with the emptiness of `get_status(WorkingDir)` (gix
index/worktree iterator backend) under the same untracked policy. -/
theorem is_workdir_clean_iff_get_status_empty (st : RepoState) :
    (st.is_bare = true ∧ st.is_worktree = false →
      is_workdir_clean st = true) ∧
    (¬(st.is_bare = true ∧ st.is_worktree = false) →
      (is_workdir_clean st = true ↔
        get_status (gixRepoOfState st) StatusType.WorkingDir = Except.ok [])) := by
  constructor
  · rintro ⟨h1, h2⟩
    simp [is_workdir_clean, h1, h2]
  · intro h
    have hcond : (st.is_bare && !st.is_worktree) = false := by
      cases hb : st.is_bare <;> cases hw : st.is_worktree <;> simp_all
    have hclean : is_workdir_clean st = (git2Statuses st).isEmpty := by
      simp [is_workdir_clean, hcond]
    have hstatus :
        get_status (gixRepoOfState st) StatusType.WorkingDir =
          Except.ok (sortStatus (collectWorkingDir (gixIwItems st))) := rfl
    rw [hclean, hstatus, collectWorkingDir_gixIwItems]
    constructor
    · intro hempty
      have : st.changes = [] := by
        simpa [git2Statuses, List.isEmpty_iff] using hempty
      rw [this]
      rfl
    · intro hok
      have hnil := (Except.ok.injEq _ _).mp hok
      rw [sortStatus_eq_nil_iff] at hnil
      have : st.changes = [] := by
        simpa using hnil
      simp [git2Statuses, this]

/-- A non-bare repository state with one modified path. -/
def dirtyState : RepoState :=
  ⟨false, false, [("file.rs", Summary.Modified)]⟩

/-- C4 witness: `is_workdir_clean_iff_get_status_empty` at a concrete
non-bare dirty state. -/
theorem is_workdir_clean_iff_witness :
    ¬(dirtyState.is_bare = true ∧ dirtyState.is_worktree = false) ∧
    (is_workdir_clean dirtyState = true ↔
      get_status (gixRepoOfState dirtyState) StatusType.WorkingDir =
        Except.ok []) :=
  ⟨by decide,
    (is_workdir_clean_iff_get_status_empty dirtyState).2 (by decide)⟩
